import Mathlib

/-! # ClangLib: the translation unit (`translationunit.h`)

A shallow embedding of `ClTranslationUnit`: its private members, the inline
member functions of the header (`swap`, `UsesClangIndex`, `Contains`,
`GetFileId`, `IsEmpty`, `IsValid`, `GetId`, `SetFiles`, `GetFunctionScopes`)
and the two standard containers they rely on (`std::vector` with
`std::binary_search`, `std::map` with `operator[]`).

Conventions:
* a member function that is not `const` takes the unit and returns the new unit
  next to its result; a `const` member function is a plain function;
* native handles and raw pointers are addresses, `0` being `nullptr`;
* `assert` failing is the result `none`.
-/

namespace ClangLib

/-! ## Types declared outside the header -/

/-- Modelled from the spec: `ClFileId` is declared in `clangpluginapi.h`; the spec
describes it as a stable integer identifying a source file. -/
abbrev ClFileId := Int

/-- Modelled from the spec: `ClTranslUnitId` is declared in `clangpluginapi.h`; the
spec describes it as a stable integer identifying one parse unit, a negative value
denoting invalid or unassigned. -/
abbrev ClTranslUnitId := Int

/-- Modelled from the spec: `ClTokenPosition` is declared in `clangpluginapi.h`; the
spec describes it as a (line, column) pair. -/
structure ClTokenPosition where
  line : Nat
  column : Nat
deriving DecidableEq, Repr

/-- Modelled from the spec: the severity of a `ClDiagnostic` (note, warning or
error); declared in `clangpluginapi.h`. -/
inductive ClDiagnosticSeverity where
  | sNote
  | sWarning
  | sError
deriving DecidableEq, Repr

/-- Modelled from the spec: `ClDiagnostic` is declared in `clangpluginapi.h`; the spec
lists severity, file, position and message text. -/
structure ClDiagnostic where
  severity : ClDiagnosticSeverity
  file : String
  position : ClTokenPosition
  message : String
deriving DecidableEq, Repr

/-- A native handle or raw pointer (`CXIndex`, `CXTranslationUnit`,
`CXCodeCompleteResults*`, `ClTokenDatabase*`): its address. -/
abbrev Handle := Nat

/-- The null pointer. -/
def nullptr : Handle := 0

/-- A `wxDateTime` value, as a count of milliseconds. -/
abbrev wxDateTime := Int

/-! ## `ClFunctionScope` and the function-scope map -/

/-- The struct `ClFunctionScope` of the header. -/
structure ClFunctionScope where
  functionName : String
  scopeName : String
  startLocation : ClTokenPosition
  endLocation : ClTokenPosition
deriving DecidableEq, Repr

/-- The typedef `std::vector<ClFunctionScope>`. -/
abbrev ClFunctionScopeList := List ClFunctionScope

/-- The typedef `std::map<ClFileId, ClFunctionScopeList>`: the entries of the map,
in the order the map keeps them (ascending keys). -/
abbrev ClFunctionScopeMap := List (ClFileId × ClFunctionScopeList)

namespace ClFunctionScopeMap

/-- The lookup `std::map::find`: the list stored under `k`, if there is an entry. -/
def find : ClFunctionScopeMap → ClFileId → Option ClFunctionScopeList
  | [], _ => none
  | (k', v) :: rest, k => if k' = k then some v else find rest k

/-- The insertion `std::map::insert`: adds the entry `(k, v)` at its place in key order;
a map that already has an entry for `k` is left as it is. -/
def insert : ClFunctionScopeMap → ClFileId → ClFunctionScopeList → ClFunctionScopeMap
  | [], k, v => [(k, v)]
  | (k', v') :: rest, k, v =>
    if k < k' then (k, v) :: (k', v') :: rest
    else if k = k' then (k', v') :: rest
    else (k', v') :: insert rest k v

/-- The removal `std::map::erase(key)`: drops the entry stored under `k`. -/
def erase (m : ClFunctionScopeMap) (k : ClFileId) : ClFunctionScopeMap :=
  m.filter (fun e => decide (e.1 ≠ k))

/-- The access `std::map::operator[]`: the list stored under `k`; when there is no
entry, one with a value-initialised (empty) list is inserted first. Returns the
list and the map afterwards. -/
def subscript (m : ClFunctionScopeMap) (k : ClFileId) :
    ClFunctionScopeList × ClFunctionScopeMap :=
  match find m k with
  | some v => (v, m)
  | none => ([], insert m k [])

end ClFunctionScopeMap

/-! ## `std::binary_search` over a `std::vector<ClFileId>` -/

/-- The loop of `std::lower_bound` on the range `[first, first + count)` of `xs`:
```
while (count > 0) {
    it = first; step = count / 2; advance(it, step);
    if (*it < value) { first = ++it; count -= step + 1; }
    else count = step;
}
return first;
```
`count` strictly decreases, so `count` iterations are enough; `fuel` bounds the
number of iterations. -/
def lower_bound_loop (xs : List ClFileId) (value : ClFileId) : Nat → Nat → Nat → Nat
  | 0, first, _ => first
  | fuel + 1, first, count =>
    if count = 0 then first
    else
      let step := count / 2
      let it := first + step
      if xs.getD it 0 < value then
        lower_bound_loop xs value fuel (it + 1) (count - (step + 1))
      else
        lower_bound_loop xs value fuel first step

/-- The function `std::lower_bound(xs.begin(), xs.end(), value)`, as an index into `xs`. -/
def lower_bound (xs : List ClFileId) (value : ClFileId) : Nat :=
  lower_bound_loop xs value xs.length 0 xs.length

/-- The function `std::binary_search(xs.begin(), xs.end(), value)`:
```
first = std::lower_bound(first, last, value);
return (!(first == last) && !(value < *first));
```
-/
def binary_search (xs : List ClFileId) (value : ClFileId) : Bool :=
  let first := lower_bound xs value
  !(first == xs.length) && !(decide (value < xs.getD first 0))

/-! ## `ClTranslationUnit` -/

/-- The nested struct `FilePos` of `ClTranslationUnit`. -/
structure FilePos where
  line : Nat
  column : Nat
deriving DecidableEq, Repr

/-- The private members of `ClTranslationUnit`, in the order of the header. -/
structure ClTranslationUnit where
  m_pDatabase : Handle
  m_Id : ClTranslUnitId
  m_FileId : ClFileId
  m_Files : List ClFileId
  m_ClIndex : Handle
  m_ClTranslUnit : Handle
  m_LastCC : Handle
  m_Diagnostics : List ClDiagnostic
  m_LastPos : FilePos
  m_LastParsed : wxDateTime
  m_FunctionScopes : ClFunctionScopeMap
deriving DecidableEq, Repr

namespace ClTranslationUnit

/-- The friend function `swap(first, second)`: asserts that the ids are equal, then
swaps the members one after the other. Returns the two units afterwards. -/
def swap (first second : ClTranslationUnit) :
    Option (ClTranslationUnit × ClTranslationUnit) :=
  if first.m_Id ≠ second.m_Id then none
  else
    let (first, second) :=
      ({ first with m_pDatabase := second.m_pDatabase },
       { second with m_pDatabase := first.m_pDatabase })
    let (first, second) :=
      ({ first with m_Id := second.m_Id }, { second with m_Id := first.m_Id })
    let (first, second) :=
      ({ first with m_FileId := second.m_FileId }, { second with m_FileId := first.m_FileId })
    let (first, second) :=
      ({ first with m_Files := second.m_Files }, { second with m_Files := first.m_Files })
    let (first, second) :=
      ({ first with m_ClIndex := second.m_ClIndex }, { second with m_ClIndex := first.m_ClIndex })
    let (first, second) :=
      ({ first with m_ClTranslUnit := second.m_ClTranslUnit },
       { second with m_ClTranslUnit := first.m_ClTranslUnit })
    let (first, second) :=
      ({ first with m_LastCC := second.m_LastCC }, { second with m_LastCC := first.m_LastCC })
    let (first, second) :=
      ({ first with m_Diagnostics := second.m_Diagnostics },
       { second with m_Diagnostics := first.m_Diagnostics })
    let (first, second) :=
      ({ first with m_LastPos := { first.m_LastPos with line := second.m_LastPos.line } },
       { second with m_LastPos := { second.m_LastPos with line := first.m_LastPos.line } })
    let (first, second) :=
      ({ first with m_LastPos := { first.m_LastPos with column := second.m_LastPos.column } },
       { second with m_LastPos := { second.m_LastPos with column := first.m_LastPos.column } })
    let (first, second) :=
      ({ first with m_LastParsed := second.m_LastParsed },
       { second with m_LastParsed := first.m_LastParsed })
    let (first, second) :=
      ({ first with m_FunctionScopes := second.m_FunctionScopes },
       { second with m_FunctionScopes := first.m_FunctionScopes })
    some (first, second)

/-- The member `UsesClangIndex(idx)`: `return idx == m_ClIndex;`. Not declared `const`,
so the unit afterwards is returned as well. -/
def UsesClangIndex (tu : ClTranslationUnit) (idx : Handle) : Bool × ClTranslationUnit :=
  (idx == tu.m_ClIndex, tu)

/-- The member `Contains(fId)`: `std::binary_search` over `m_Files`. -/
def Contains (tu : ClTranslationUnit) (fId : ClFileId) : Bool :=
  binary_search tu.m_Files fId

/-- The member `GetFileId()`. -/
def GetFileId (tu : ClTranslationUnit) : ClFileId := tu.m_FileId

/-- The member `IsEmpty()`: `m_Files.empty()`. -/
def IsEmpty (tu : ClTranslationUnit) : Bool := tu.m_Files.isEmpty

/-- The member `IsValid()`: three early returns of `false`, then `true`. -/
def IsValid (tu : ClTranslationUnit) : Bool :=
  if tu.IsEmpty then false
  else if tu.m_ClTranslUnit = nullptr then false
  else if tu.m_Id < 0 then false
  else true

/-- The member `GetId()`. -/
def GetId (tu : ClTranslationUnit) : ClTranslUnitId := tu.m_Id

/-- The member `GetLastParsed()`. -/
def GetLastParsed (tu : ClTranslationUnit) : wxDateTime := tu.m_LastParsed

/-- The member `SetFiles(files)`: `m_Files = files;`. -/
def SetFiles (tu : ClTranslationUnit) (files : List ClFileId) : ClTranslationUnit :=
  { tu with m_Files := files }

/-- The member `GetFunctionScopes(fileId, out_functionScopes)`:
`out_functionScopes = m_FunctionScopes[fileId];`. Returns the value of the out
parameter and the unit afterwards. -/
def GetFunctionScopes (tu : ClTranslationUnit) (fileId : ClFileId) :
    ClFunctionScopeList × ClTranslationUnit :=
  let r := ClFunctionScopeMap.subscript tu.m_FunctionScopes fileId
  (r.1, { tu with m_FunctionScopes := r.2 })

/-- Modelled from the spec: `UpdateFunctionScopes` is only declared in the header, its
body is in `translationunit.cpp`. The spec: after `UpdateFunctionScopes(fileId, newList)`
the scopes of `fileId` are exactly `newList`, replaced and not merged, and the scopes
of other files are unaffected. The entry of `fileId` is dropped and a new one holding
`functionScopes` is inserted. -/
def UpdateFunctionScopes (tu : ClTranslationUnit) (fileId : ClFileId)
    (functionScopes : ClFunctionScopeList) : ClTranslationUnit :=
  { tu with
    m_FunctionScopes :=
      ClFunctionScopeMap.insert (ClFunctionScopeMap.erase tu.m_FunctionScopes fileId)
        fileId functionScopes }

end ClTranslationUnit

/-! ## Concrete units -/

/-- A unit as left by the constructor with an index: no files, no native translation
unit, nothing cached. -/
def emptyUnit : ClTranslationUnit :=
  { m_pDatabase := 4096, m_Id := 0, m_FileId := -1, m_Files := [], m_ClIndex := 8192,
    m_ClTranslUnit := nullptr, m_LastCC := nullptr, m_Diagnostics := [],
    m_LastPos := { line := 1, column := 1 }, m_LastParsed := 0, m_FunctionScopes := [] }

/-- A function scope: `main` in the global scope, lines 3 to 9. -/
def scopeMain : ClFunctionScope :=
  { functionName := "main", scopeName := "",
    startLocation := { line := 3, column := 1 }, endLocation := { line := 9, column := 2 } }

/-- A function scope: `Widget::Draw`, lines 12 to 20. -/
def scopeDraw : ClFunctionScope :=
  { functionName := "Draw", scopeName := "Widget",
    startLocation := { line := 12, column := 1 }, endLocation := { line := 20, column := 2 } }

/-- A unit after a successful parse: three files, a native translation unit and the
function scopes of file 2. -/
def parsedUnit : ClTranslationUnit :=
  { m_pDatabase := 4352, m_Id := 0, m_FileId := 2, m_Files := [2, 5, 9], m_ClIndex := 8192,
    m_ClTranslUnit := 12288, m_LastCC := 16384, m_Diagnostics := [],
    m_LastPos := { line := 4, column := 7 }, m_LastParsed := 1500,
    m_FunctionScopes := [(2, [scopeMain])] }

/-- A unit between the native parse and the installation of its file list: it holds a
native translation unit, its file list is still empty. -/
def pendingUnit : ClTranslationUnit :=
  { emptyUnit with m_ClTranslUnit := 12288 }

/-! ## Binary search on a sorted vector -/

theorem getD_mono_of_sorted {xs : List ClFileId} (hs : List.Sorted (· ≤ ·) xs)
    (i j : Nat) (hij : i ≤ j) (hj : j < xs.length) : xs.getD i 0 ≤ xs.getD j 0 := by
  have hi : i < xs.length := lt_of_le_of_lt hij hj
  rw [List.getD_eq_getElem xs 0 hi, List.getD_eq_getElem xs 0 hj]
  rcases Nat.eq_or_lt_of_le hij with h | h
  · subst h; exact le_refl _
  · exact (List.pairwise_iff_getElem.mp hs) i j hi hj h

/-- The loop of `std::lower_bound` keeps: everything before `first` is below `value`,
everything from `first + count` on is not. With `count` iterations available it ends
at the partition point of a sorted vector. -/
theorem lower_bound_loop_spec (xs : List ClFileId) (value : ClFileId)
    (hs : List.Sorted (· ≤ ·) xs) :
    ∀ (fuel first count : Nat), count ≤ fuel → first + count ≤ xs.length →
      (∀ i, i < first → xs.getD i 0 < value) →
      (∀ i, first + count ≤ i → i < xs.length → value ≤ xs.getD i 0) →
      lower_bound_loop xs value fuel first count ≤ xs.length ∧
      (∀ i, i < lower_bound_loop xs value fuel first count → xs.getD i 0 < value) ∧
      (∀ i, lower_bound_loop xs value fuel first count ≤ i → i < xs.length →
        value ≤ xs.getD i 0) := by
  intro fuel
  induction fuel with
  | zero =>
    intro first count hc hlen hlo hhi
    have hc0 : count = 0 := Nat.le_zero.mp hc
    subst hc0
    simp only [lower_bound_loop]
    exact ⟨by omega, hlo, fun i hi hil => hhi i (by omega) hil⟩
  | succ fuel ih =>
    intro first count hc hlen hlo hhi
    simp only [lower_bound_loop]
    by_cases hc0 : count = 0
    · subst hc0
      simp only [if_true]
      exact ⟨by omega, hlo, fun i hi hil => hhi i (by omega) hil⟩
    · rw [if_neg hc0]
      have hstep : count / 2 < count := Nat.div_lt_self (Nat.pos_of_ne_zero hc0) (by decide)
      by_cases hlt : xs.getD (first + count / 2) 0 < value
      · rw [if_pos hlt]
        apply ih (first + count / 2 + 1) (count - (count / 2 + 1)) (by omega) (by omega)
        · intro i hi
          have hmono := getD_mono_of_sorted hs i (first + count / 2) (by omega) (by omega)
          exact lt_of_le_of_lt hmono hlt
        · intro i hi hil
          exact hhi i (by omega) hil
      · rw [if_neg hlt]
        apply ih first (count / 2) (by omega) (by omega) hlo
        intro i hi hil
        have hmono := getD_mono_of_sorted hs (first + count / 2) i hi hil
        exact le_trans (not_lt.mp hlt) hmono

/-- On a sorted vector `std::binary_search` decides membership. -/
theorem binary_search_iff_mem (xs : List ClFileId) (value : ClFileId)
    (hs : List.Sorted (· ≤ ·) xs) : binary_search xs value = true ↔ value ∈ xs := by
  obtain ⟨hle, hlo, hhi⟩ := lower_bound_loop_spec xs value hs xs.length 0 xs.length
    (le_refl _) (by omega) (fun i hi => absurd hi (Nat.not_lt_zero i))
    (fun i hi hil => absurd hil (by omega))
  simp only [binary_search, lower_bound, Bool.and_eq_true, Bool.not_eq_true', beq_eq_false_iff_ne,
    ne_eq, decide_eq_false_iff_not, not_lt]
  constructor
  · rintro ⟨hne, hge⟩
    have hr : lower_bound_loop xs value xs.length 0 xs.length < xs.length :=
      lt_of_le_of_ne hle hne
    have heq : xs.getD (lower_bound_loop xs value xs.length 0 xs.length) 0 = value :=
      le_antisymm hge (hhi _ (le_refl _) hr)
    rw [List.getD_eq_getElem xs 0 hr] at heq
    rw [← heq]
    exact List.getElem_mem _
  · intro hmem
    obtain ⟨j, hj, hjv⟩ := List.mem_iff_getElem.mp hmem
    have hjv' : xs.getD j 0 = value := by rw [List.getD_eq_getElem xs 0 hj]; exact hjv
    have hrj : lower_bound_loop xs value xs.length 0 xs.length ≤ j := by
      by_contra hcon
      have := hlo j (not_le.mp hcon)
      rw [hjv'] at this
      exact lt_irrefl _ this
    refine ⟨by omega, ?_⟩
    have := getD_mono_of_sorted hs _ j hrj hj
    rw [hjv'] at this
    exact this

/-- On an empty vector `std::binary_search` finds nothing. -/
theorem binary_search_nil (value : ClFileId) : binary_search [] value = false := by
  simp [binary_search, lower_bound, lower_bound_loop]

/-! ## The function-scope map -/

theorem find_insert_of_ne (m : ClFunctionScopeMap) (k g : ClFileId) (v : ClFunctionScopeList)
    (hg : g ≠ k) :
    ClFunctionScopeMap.find (ClFunctionScopeMap.insert m k v) g = ClFunctionScopeMap.find m g := by
  induction m with
  | nil => simp [ClFunctionScopeMap.insert, ClFunctionScopeMap.find, Ne.symm hg]
  | cons e rest ih =>
    obtain ⟨k', v'⟩ := e
    simp only [ClFunctionScopeMap.insert]
    split_ifs with h1 h2
    · simp [ClFunctionScopeMap.find, Ne.symm hg]
    · rfl
    · simp only [ClFunctionScopeMap.find, ih]

theorem find_insert_self_of_none (m : ClFunctionScopeMap) (k : ClFileId)
    (v : ClFunctionScopeList) (hk : ClFunctionScopeMap.find m k = none) :
    ClFunctionScopeMap.find (ClFunctionScopeMap.insert m k v) k = some v := by
  induction m with
  | nil => simp [ClFunctionScopeMap.insert, ClFunctionScopeMap.find]
  | cons e rest ih =>
    obtain ⟨k', v'⟩ := e
    simp only [ClFunctionScopeMap.find] at hk
    split_ifs at hk with h0
    simp only [ClFunctionScopeMap.insert]
    split_ifs with h1 h2
    · simp [ClFunctionScopeMap.find]
    · exact absurd h2.symm h0
    · simp only [ClFunctionScopeMap.find, if_neg h0]
      exact ih hk

theorem find_erase_self (m : ClFunctionScopeMap) (k : ClFileId) :
    ClFunctionScopeMap.find (ClFunctionScopeMap.erase m k) k = none := by
  induction m with
  | nil => rfl
  | cons e rest ih =>
    obtain ⟨k', v'⟩ := e
    by_cases h : k' = k
    · simpa [ClFunctionScopeMap.erase, List.filter_cons, h] using ih
    · simpa [ClFunctionScopeMap.erase, List.filter_cons, h, ClFunctionScopeMap.find] using ih

theorem find_erase_of_ne (m : ClFunctionScopeMap) (k g : ClFileId) (hg : g ≠ k) :
    ClFunctionScopeMap.find (ClFunctionScopeMap.erase m k) g = ClFunctionScopeMap.find m g := by
  induction m with
  | nil => rfl
  | cons e rest ih =>
    obtain ⟨k', v'⟩ := e
    by_cases h : k' = k
    · have hkg : ¬ k' = g := fun h' => hg (h'.symm.trans h)
      simpa [ClFunctionScopeMap.erase, List.filter_cons, h, ClFunctionScopeMap.find, Ne.symm hg]
        using ih
    · by_cases h' : k' = g
      · subst h'
        simp [ClFunctionScopeMap.erase, List.filter_cons, h, ClFunctionScopeMap.find]
      · simpa [ClFunctionScopeMap.erase, List.filter_cons, h, ClFunctionScopeMap.find, h'] using ih

/-- The list `operator[]` yields is the stored one, or the empty list when there is
no entry. -/
theorem subscript_fst (m : ClFunctionScopeMap) (k : ClFileId) :
    (ClFunctionScopeMap.subscript m k).1 = (ClFunctionScopeMap.find m k).getD [] := by
  unfold ClFunctionScopeMap.subscript
  cases ClFunctionScopeMap.find m k <;> rfl

theorem subscript_snd_of_some (m : ClFunctionScopeMap) (k : ClFileId) (l : ClFunctionScopeList)
    (h : ClFunctionScopeMap.find m k = some l) : (ClFunctionScopeMap.subscript m k).2 = m := by
  unfold ClFunctionScopeMap.subscript
  rw [h]

theorem subscript_snd_of_none (m : ClFunctionScopeMap) (k : ClFileId)
    (h : ClFunctionScopeMap.find m k = none) :
    (ClFunctionScopeMap.subscript m k).2 = ClFunctionScopeMap.insert m k [] := by
  unfold ClFunctionScopeMap.subscript
  rw [h]

/-- After `operator[]` every key reads as it would have read before. -/
theorem find_subscript_getD (m : ClFunctionScopeMap) (k g : ClFileId) :
    (ClFunctionScopeMap.find (ClFunctionScopeMap.subscript m k).2 g).getD [] =
      (ClFunctionScopeMap.find m g).getD [] := by
  cases h : ClFunctionScopeMap.find m k with
  | some l => rw [subscript_snd_of_some m k l h]
  | none =>
    rw [subscript_snd_of_none m k h]
    by_cases hg : g = k
    · subst hg
      rw [find_insert_self_of_none m g [] h, h]
      rfl
    · rw [find_insert_of_ne m k g [] hg]

/-! ## `swap` -/

/-- With equal ids the assertion of `swap` holds and the twelve member swaps exchange
the two units. -/
theorem swap_eq_some (a b : ClTranslationUnit) (h : a.m_Id = b.m_Id) :
    ClTranslationUnit.swap a b = some (b, a) := by
  cases a; cases b; simp_all [ClTranslationUnit.swap]

/-- With different ids the assertion of `swap` fails. -/
theorem swap_eq_none (a b : ClTranslationUnit) (h : a.m_Id ≠ b.m_Id) :
    ClTranslationUnit.swap a b = none := by
  simp [ClTranslationUnit.swap, h]

theorem swap_some_inv (a b a' b' : ClTranslationUnit)
    (h : ClTranslationUnit.swap a b = some (a', b')) : a.m_Id = b.m_Id ∧ a' = b ∧ b' = a := by
  by_cases hid : a.m_Id = b.m_Id
  · rw [swap_eq_some a b hid] at h
    simp only [Option.some.injEq, Prod.mk.injEq] at h
    exact ⟨hid, h.1.symm, h.2.symm⟩
  · rw [swap_eq_none a b hid] at h
    exact absurd h (by simp)

/-! ## `IsValid` -/

theorem IsValid_eq_true_iff (tu : ClTranslationUnit) :
    tu.IsValid = true ↔ tu.m_Files ≠ [] ∧ tu.m_ClTranslUnit ≠ nullptr ∧ 0 ≤ tu.m_Id := by
  unfold ClTranslationUnit.IsValid ClTranslationUnit.IsEmpty
  cases hF : tu.m_Files with
  | nil => simp
  | cons x xs =>
    by_cases h1 : tu.m_ClTranslUnit = nullptr
    · simp [h1]
    · by_cases h2 : tu.m_Id < 0
      · simp [h1, h2]
      · simp [h1, h2, not_lt.mp h2]

/-! ## The claims -/

open ClTranslationUnit

/-- C1: `IsValid()` is true exactly when the file list is non-empty, the native handle
is non-null and the id is non-negative; a unit with id -1, or with an empty file list,
or with a null handle is not valid. -/
theorem IsValid_iff_files_handle_id (tu : ClTranslationUnit) :
    (tu.IsValid = true ↔ tu.m_Files ≠ [] ∧ tu.m_ClTranslUnit ≠ nullptr ∧ 0 ≤ tu.m_Id) ∧
    (tu.m_Id = -1 → tu.IsValid = false) ∧
    (tu.m_Files = [] → tu.IsValid = false) ∧
    (tu.m_ClTranslUnit = nullptr → tu.IsValid = false) := by
  have hiff := IsValid_eq_true_iff tu
  refine ⟨hiff, ?_, ?_, ?_⟩
  · intro h
    rw [← Bool.not_eq_true, hiff, h]
    rintro ⟨_, _, h3⟩
    exact absurd h3 (by decide)
  · intro h
    rw [← Bool.not_eq_true, hiff]
    rintro ⟨h1, _, _⟩
    exact h1 h
  · intro h
    rw [← Bool.not_eq_true, hiff]
    rintro ⟨_, h2, _⟩
    exact h2 h

/-- C1, at the unit the constructor leaves (no files, no handle) and at a parsed unit. -/
theorem IsValid_iff_files_handle_id_witness :
    emptyUnit.m_Files = [] ∧ emptyUnit.IsValid = false ∧ parsedUnit.IsValid = true := by
  refine ⟨rfl, (IsValid_iff_files_handle_id emptyUnit).2.2.1 rfl, ?_⟩
  exact (IsValid_iff_files_handle_id parsedUnit).1.mpr ⟨by decide, by decide, by decide⟩

/-- C2: for a file list `F` sorted in ascending order, after `SetFiles(F)` the call
`Contains(x)` is true exactly when `x` is an element of `F`; on a unit whose file list
is empty `Contains(x)` is false. -/
theorem Contains_SetFiles_iff_mem (tu : ClTranslationUnit) (F : List ClFileId) (x : ClFileId)
    (hF : List.Sorted (· ≤ ·) F) :
    ((tu.SetFiles F).Contains x = true ↔ x ∈ F) ∧
    (tu.IsEmpty = true → tu.Contains x = false) := by
  constructor
  · exact binary_search_iff_mem F x hF
  · intro he
    have hnil : tu.m_Files = [] := List.isEmpty_iff.mp he
    unfold ClTranslationUnit.Contains
    rw [hnil]
    exact binary_search_nil x

/-- C2, at the sorted list 2, 5, 9 and the file id 5. -/
theorem Contains_SetFiles_iff_mem_witness :
    List.Sorted (· ≤ ·) ([2, 5, 9] : List ClFileId) ∧
    ((emptyUnit.SetFiles [2, 5, 9]).Contains 5 = true ↔ (5 : ClFileId) ∈ [2, 5, 9]) ∧
    (emptyUnit.IsEmpty = true → emptyUnit.Contains 5 = false) :=
  ⟨by decide, Contains_SetFiles_iff_mem emptyUnit [2, 5, 9] 5 (by decide)⟩

/-- C3 as stated fails: `SetFiles` stores the list it is given without sorting it, so
after `SetFiles` with the list 2, 1 on a unit whose file list is sorted the file list
is not sorted (and `Contains(2)` misses the file 2). -/
theorem SetFiles_unsorted_counterexample :
    List.Sorted (· ≤ ·) emptyUnit.m_Files ∧
    ¬ List.Sorted (· ≤ ·) (emptyUnit.SetFiles [2, 1]).m_Files ∧
    (emptyUnit.SetFiles [2, 1]).Contains 2 = false := by
  refine ⟨by decide, by decide, by decide⟩

/-- C3, amended: after `SetFiles(F)` the file list is `F` as given, so it is sorted
exactly when `F` is; and for two units whose file lists are sorted, `swap` completes
when the ids are equal, and whenever it completes both file lists are sorted. -/
theorem SetFiles_swap_sorted (tu a b : ClTranslationUnit) (F : List ClFileId) :
    (tu.SetFiles F).m_Files = F ∧
    (List.Sorted (· ≤ ·) (tu.SetFiles F).m_Files ↔ List.Sorted (· ≤ ·) F) ∧
    (List.Sorted (· ≤ ·) a.m_Files → List.Sorted (· ≤ ·) b.m_Files →
      (a.m_Id = b.m_Id → (swap a b).isSome = true) ∧
      ∀ a' b', swap a b = some (a', b') →
        List.Sorted (· ≤ ·) a'.m_Files ∧ List.Sorted (· ≤ ·) b'.m_Files) := by
  refine ⟨rfl, Iff.rfl, ?_⟩
  intro ha hb
  constructor
  · intro hid
    rw [swap_eq_some a b hid]
    rfl
  · intro a' b' hs
    obtain ⟨_, h1, h2⟩ := swap_some_inv a b a' b' hs
    subst h1 h2
    exact ⟨hb, ha⟩

/-- C3 amended, at a sorted list and at the swap of a fresh unit with a parsed one. -/
theorem SetFiles_swap_sorted_witness :
    List.Sorted (· ≤ ·) (emptyUnit.SetFiles [2, 5, 9]).m_Files ∧
    (swap emptyUnit parsedUnit).isSome = true := by
  have h := SetFiles_swap_sorted emptyUnit emptyUnit parsedUnit [2, 5, 9]
  exact ⟨h.2.1.mpr (by decide), (h.2.2 (by decide) (by decide)).1 rfl⟩

/-- C4: for `dst` and `src` with equal ids, `src` valid and `dst` freshly empty (no
files, null native handle), `swap(dst, src)` completes; afterwards `dst` holds the
non-null native handle and `src` the null one, `dst.IsValid()` is true,
`src.IsEmpty()` is true and `src.IsValid()` is false. -/
theorem swap_moves_handle (dst src : ClTranslationUnit) (hid : dst.m_Id = src.m_Id)
    (hsrc : src.IsValid = true) (hfiles : dst.m_Files = [])
    (hnull : dst.m_ClTranslUnit = nullptr) :
    ∃ dst' src', swap dst src = some (dst', src') ∧
      dst'.m_ClTranslUnit ≠ nullptr ∧ src'.m_ClTranslUnit = nullptr ∧
      dst'.IsValid = true ∧ src'.IsEmpty = true ∧ src'.IsValid = false := by
  refine ⟨src, dst, swap_eq_some dst src hid, ?_, hnull, hsrc, ?_, ?_⟩
  · exact ((IsValid_eq_true_iff src).mp hsrc).2.1
  · unfold ClTranslationUnit.IsEmpty
    rw [hfiles]
    rfl
  · rw [← Bool.not_eq_true, IsValid_eq_true_iff]
    rintro ⟨h1, _, _⟩
    exact h1 hfiles

/-- C4, at a fresh unit taking over a parsed one. -/
theorem swap_moves_handle_witness :
    emptyUnit.m_Id = parsedUnit.m_Id ∧ parsedUnit.IsValid = true ∧
    ∃ dst' src', swap emptyUnit parsedUnit = some (dst', src') ∧
      dst'.m_ClTranslUnit ≠ nullptr ∧ src'.m_ClTranslUnit = nullptr ∧
      dst'.IsValid = true ∧ src'.IsEmpty = true ∧ src'.IsValid = false :=
  ⟨rfl, by decide, swap_moves_handle emptyUnit parsedUnit rfl (by decide) rfl rfl⟩

/-- C5: after `UpdateFunctionScopes(fileId, newList)`, `GetFunctionScopes(fileId)`
returns exactly `newList`, whatever was stored for `fileId` before, and for every other
file id `GetFunctionScopes` returns the list it returned before the update. -/
theorem GetFunctionScopes_UpdateFunctionScopes (tu : ClTranslationUnit) (fileId : ClFileId)
    (newList : ClFunctionScopeList) :
    ((tu.UpdateFunctionScopes fileId newList).GetFunctionScopes fileId).1 = newList ∧
    ∀ g, g ≠ fileId →
      ((tu.UpdateFunctionScopes fileId newList).GetFunctionScopes g).1 =
        (tu.GetFunctionScopes g).1 := by
  constructor
  · simp only [ClTranslationUnit.GetFunctionScopes, ClTranslationUnit.UpdateFunctionScopes,
      subscript_fst]
    rw [find_insert_self_of_none _ _ _ (find_erase_self tu.m_FunctionScopes fileId)]
    rfl
  · intro g hg
    simp only [ClTranslationUnit.GetFunctionScopes, ClTranslationUnit.UpdateFunctionScopes,
      subscript_fst]
    rw [find_insert_of_ne _ _ _ _ hg, find_erase_of_ne _ _ _ hg]

/-- C5, at a parsed unit whose scopes of file 2 are replaced: file 2 reads the new
list, file 5 reads what it read before. -/
theorem GetFunctionScopes_UpdateFunctionScopes_witness :
    ((parsedUnit.UpdateFunctionScopes 2 [scopeDraw]).GetFunctionScopes 2).1 = [scopeDraw] ∧
    ((parsedUnit.UpdateFunctionScopes 2 [scopeDraw]).GetFunctionScopes 5).1 =
      (parsedUnit.GetFunctionScopes 5).1 :=
  ⟨(GetFunctionScopes_UpdateFunctionScopes parsedUnit 2 [scopeDraw]).1,
   (GetFunctionScopes_UpdateFunctionScopes parsedUnit 2 [scopeDraw]).2 5 (by decide)⟩

/-- C6 as stated fails: neither member checks `IsValid()`. On a unit that holds a
native handle and has no files yet (so `IsValid()` is false), `SetFiles` with the list
7 changes the file list and makes the unit valid, and `GetFunctionScopes(7, out)` adds
an entry to the function-scope map. -/
theorem invalid_unit_not_rejected_counterexample :
    pendingUnit.IsValid = false ∧
    (pendingUnit.SetFiles [7]).m_Files ≠ pendingUnit.m_Files ∧
    (pendingUnit.SetFiles [7]).IsValid = true ∧
    (pendingUnit.GetFunctionScopes 7).2.m_FunctionScopes ≠ pendingUnit.m_FunctionScopes := by
  refine ⟨by decide, by decide, by decide, by decide⟩

/-- C6, amended: on a unit on which `IsValid()` is false, `GetFunctionScopes(fileId, out)`
leaves the file list unchanged and the unit invalid, and leaves the whole unit unchanged
when `fileId` has an entry in the function-scope map; `SetFiles(files)` leaves the
function-scope map unchanged, makes `files` the file list, and the unit is valid
afterwards exactly when `files` is non-empty, the native handle non-null and the id
non-negative. -/
theorem invalid_unit_operations (tu : ClTranslationUnit) (fileId : ClFileId)
    (files : List ClFileId) (hinv : tu.IsValid = false) :
    (tu.GetFunctionScopes fileId).2.m_Files = tu.m_Files ∧
    (tu.GetFunctionScopes fileId).2.IsValid = false ∧
    (∀ l, ClFunctionScopeMap.find tu.m_FunctionScopes fileId = some l →
      (tu.GetFunctionScopes fileId).2 = tu) ∧
    (tu.SetFiles files).m_FunctionScopes = tu.m_FunctionScopes ∧
    (tu.SetFiles files).m_Files = files ∧
    ((tu.SetFiles files).IsValid = true ↔
      files ≠ [] ∧ tu.m_ClTranslUnit ≠ nullptr ∧ 0 ≤ tu.m_Id) := by
  refine ⟨rfl, ?_, ?_, rfl, rfl, ?_⟩
  · rw [← hinv]
    rfl
  · intro l hl
    simp only [ClTranslationUnit.GetFunctionScopes, subscript_snd_of_some _ _ l hl]
  · exact IsValid_eq_true_iff (tu.SetFiles files)

/-- C6 amended, at the unit the constructor leaves: reading the scopes of file 7
leaves it invalid, and so does `SetFiles`, since the native handle is null. -/
theorem invalid_unit_operations_witness :
    emptyUnit.IsValid = false ∧
    (emptyUnit.GetFunctionScopes 7).2.IsValid = false ∧
    (emptyUnit.SetFiles [7]).m_Files = [7] :=
  ⟨by decide, (invalid_unit_operations emptyUnit 7 [7] (by decide)).2.1,
   (invalid_unit_operations emptyUnit 7 [7] (by decide)).2.2.2.2.1⟩

/-- C7: `UsesClangIndex(idx)` is true exactly when `idx` is the index handle of the unit
and leaves the unit as it was; two units that both answer true for one `idx` hold the
same index handle, and there is an `idx` for which both answer true exactly when they
hold the same index handle. -/
theorem UsesClangIndex_identity (a b : ClTranslationUnit) (idx : Handle) :
    ((a.UsesClangIndex idx).1 = true ↔ idx = a.m_ClIndex) ∧
    (a.UsesClangIndex idx).2 = a ∧
    (((a.UsesClangIndex idx).1 = true ∧ (b.UsesClangIndex idx).1 = true) ↔
      (a.m_ClIndex = idx ∧ b.m_ClIndex = idx)) ∧
    ((∃ i, (a.UsesClangIndex i).1 = true ∧ (b.UsesClangIndex i).1 = true) ↔
      a.m_ClIndex = b.m_ClIndex) := by
  have key : ∀ (u : ClTranslationUnit) (i : Handle),
      (u.UsesClangIndex i).1 = true ↔ i = u.m_ClIndex := by
    intro u i
    simp [ClTranslationUnit.UsesClangIndex]
  refine ⟨key a idx, rfl, ?_, ?_⟩
  · rw [key a idx, key b idx]
    exact ⟨fun h => ⟨h.1.symm, h.2.symm⟩, fun h => ⟨h.1.symm, h.2.symm⟩⟩
  · constructor
    · rintro ⟨i, hi⟩
      rw [key a i, key b i] at hi
      exact hi.1.symm.trans hi.2
    · intro h
      exact ⟨a.m_ClIndex, (key a _).mpr rfl, (key b _).mpr h⟩

/-- C8: for two units with equal ids `swap(a, b)` completes and leaves in `a` the whole
former `b` and in `b` the whole former `a`, member by member; a second `swap` restores
both units. -/
theorem swap_exchanges_and_involutive (a b : ClTranslationUnit) (hid : a.m_Id = b.m_Id) :
    ∃ a' b', swap a b = some (a', b') ∧ a' = b ∧ b' = a ∧
      (a'.m_pDatabase = b.m_pDatabase ∧ a'.m_Id = b.m_Id ∧ a'.m_FileId = b.m_FileId ∧
       a'.m_Files = b.m_Files ∧ a'.m_ClIndex = b.m_ClIndex ∧
       a'.m_ClTranslUnit = b.m_ClTranslUnit ∧ a'.m_LastCC = b.m_LastCC ∧
       a'.m_Diagnostics = b.m_Diagnostics ∧ a'.m_LastPos.line = b.m_LastPos.line ∧
       a'.m_LastPos.column = b.m_LastPos.column ∧ a'.m_LastParsed = b.m_LastParsed ∧
       a'.m_FunctionScopes = b.m_FunctionScopes) ∧
      (b'.m_pDatabase = a.m_pDatabase ∧ b'.m_Id = a.m_Id ∧ b'.m_FileId = a.m_FileId ∧
       b'.m_Files = a.m_Files ∧ b'.m_ClIndex = a.m_ClIndex ∧
       b'.m_ClTranslUnit = a.m_ClTranslUnit ∧ b'.m_LastCC = a.m_LastCC ∧
       b'.m_Diagnostics = a.m_Diagnostics ∧ b'.m_LastPos.line = a.m_LastPos.line ∧
       b'.m_LastPos.column = a.m_LastPos.column ∧ b'.m_LastParsed = a.m_LastParsed ∧
       b'.m_FunctionScopes = a.m_FunctionScopes) ∧
      swap a' b' = some (a, b) := by
  refine ⟨b, a, swap_eq_some a b hid, rfl, rfl, ?_, ?_, swap_eq_some b a hid.symm⟩
  · exact ⟨rfl, rfl, rfl, rfl, rfl, rfl, rfl, rfl, rfl, rfl, rfl, rfl⟩
  · exact ⟨rfl, rfl, rfl, rfl, rfl, rfl, rfl, rfl, rfl, rfl, rfl, rfl⟩

/-- C8, at a fresh unit and a parsed unit: the swap exchanges them and a second swap
puts them back. -/
theorem swap_exchanges_and_involutive_witness :
    emptyUnit.m_Id = parsedUnit.m_Id ∧
    swap emptyUnit parsedUnit = some (parsedUnit, emptyUnit) ∧
    swap parsedUnit emptyUnit = some (emptyUnit, parsedUnit) := by
  obtain ⟨a', b', hs, ha, hb, _, _, hback⟩ :=
    swap_exchanges_and_involutive emptyUnit parsedUnit rfl
  subst ha hb
  exact ⟨rfl, hs, hback⟩

/-- C9: `GetFunctionScopes(f, out)` on a map without an entry for `f` sets `out` to the
empty list and leaves a map that has an empty entry for `f` and reads as before under
every other file id, the other members being unchanged; on a map with an entry for `f`
it sets `out` to the stored list and leaves the unit unchanged. Either way a following
`GetFunctionScopes(g, out)` returns the list it would have returned before. -/
theorem GetFunctionScopes_effect (tu : ClTranslationUnit) (f : ClFileId) :
    (ClFunctionScopeMap.find tu.m_FunctionScopes f = none →
      (tu.GetFunctionScopes f).1 = [] ∧
      ClFunctionScopeMap.find (tu.GetFunctionScopes f).2.m_FunctionScopes f = some [] ∧
      (tu.GetFunctionScopes f).2.m_FunctionScopes ≠ tu.m_FunctionScopes ∧
      (∀ g, g ≠ f → ClFunctionScopeMap.find (tu.GetFunctionScopes f).2.m_FunctionScopes g =
        ClFunctionScopeMap.find tu.m_FunctionScopes g) ∧
      { (tu.GetFunctionScopes f).2 with m_FunctionScopes := tu.m_FunctionScopes } = tu) ∧
    (∀ l, ClFunctionScopeMap.find tu.m_FunctionScopes f = some l →
      (tu.GetFunctionScopes f).1 = l ∧ (tu.GetFunctionScopes f).2 = tu) ∧
    (∀ g, ((tu.GetFunctionScopes f).2.GetFunctionScopes g).1 = (tu.GetFunctionScopes g).1) := by
  refine ⟨?_, ?_, ?_⟩
  · intro hnone
    have hmap : (tu.GetFunctionScopes f).2.m_FunctionScopes =
        ClFunctionScopeMap.insert tu.m_FunctionScopes f [] :=
      subscript_snd_of_none tu.m_FunctionScopes f hnone
    have hself := find_insert_self_of_none tu.m_FunctionScopes f [] hnone
    refine ⟨?_, ?_, ?_, ?_, rfl⟩
    · simp only [ClTranslationUnit.GetFunctionScopes, subscript_fst, hnone]
      rfl
    · rw [hmap]
      exact hself
    · intro heq
      rw [hmap] at heq
      rw [heq, hnone] at hself
      exact absurd hself (by simp)
    · intro g hg
      rw [hmap]
      exact find_insert_of_ne tu.m_FunctionScopes f g [] hg
  · intro l hl
    constructor
    · simp only [ClTranslationUnit.GetFunctionScopes, subscript_fst, hl]
      rfl
    · simp only [ClTranslationUnit.GetFunctionScopes, subscript_snd_of_some _ _ l hl]
  · intro g
    simp only [ClTranslationUnit.GetFunctionScopes, subscript_fst]
    exact find_subscript_getD tu.m_FunctionScopes f g

/-- C9, at a parsed unit with scopes for file 2 only: reading file 5 yields the empty
list and adds an entry, reading file 2 yields the stored list and changes nothing. -/
theorem GetFunctionScopes_effect_witness :
    (parsedUnit.GetFunctionScopes 5).1 = [] ∧
    (parsedUnit.GetFunctionScopes 5).2.m_FunctionScopes ≠ parsedUnit.m_FunctionScopes ∧
    (parsedUnit.GetFunctionScopes 2).1 = [scopeMain] ∧
    (parsedUnit.GetFunctionScopes 2).2 = parsedUnit :=
  ⟨((GetFunctionScopes_effect parsedUnit 5).1 (by decide)).1,
   ((GetFunctionScopes_effect parsedUnit 5).1 (by decide)).2.2.1,
   ((GetFunctionScopes_effect parsedUnit 2).2.1 [scopeMain] (by decide)).1,
   ((GetFunctionScopes_effect parsedUnit 2).2.1 [scopeMain] (by decide)).2⟩

/-- C10: when the ids are equal `swap(a, b)` completes and leaves `GetId()` of both
units unchanged, and `IsValid()`, `IsEmpty()`, `GetFileId()` and `Contains(x)` of each
unit afterwards are those of the other unit before. -/
theorem swap_observers (a b : ClTranslationUnit) (hid : a.m_Id = b.m_Id) :
    ∃ a' b', swap a b = some (a', b') ∧
      a'.GetId = a.GetId ∧ b'.GetId = b.GetId ∧
      a'.IsValid = b.IsValid ∧ b'.IsValid = a.IsValid ∧
      a'.IsEmpty = b.IsEmpty ∧ b'.IsEmpty = a.IsEmpty ∧
      a'.GetFileId = b.GetFileId ∧ b'.GetFileId = a.GetFileId ∧
      (∀ x, a'.Contains x = b.Contains x) ∧ (∀ x, b'.Contains x = a.Contains x) := by
  refine ⟨b, a, swap_eq_some a b hid, ?_, ?_, rfl, rfl, rfl, rfl, rfl, rfl,
    fun _ => rfl, fun _ => rfl⟩
  · exact hid.symm
  · exact hid

/-- C10, at a fresh unit and a parsed unit with the same id. -/
theorem swap_observers_witness :
    emptyUnit.m_Id = parsedUnit.m_Id ∧
    ∃ a' b', swap emptyUnit parsedUnit = some (a', b') ∧
      a'.GetId = emptyUnit.GetId ∧ b'.GetId = parsedUnit.GetId ∧
      a'.IsValid = parsedUnit.IsValid ∧ b'.IsValid = emptyUnit.IsValid ∧
      a'.IsEmpty = parsedUnit.IsEmpty ∧ b'.IsEmpty = emptyUnit.IsEmpty ∧
      a'.GetFileId = parsedUnit.GetFileId ∧ b'.GetFileId = emptyUnit.GetFileId ∧
      (∀ x, a'.Contains x = parsedUnit.Contains x) ∧
      (∀ x, b'.Contains x = emptyUnit.Contains x) :=
  ⟨rfl, swap_observers emptyUnit parsedUnit rfl⟩

end ClangLib
